import Mathlib

set_option autoImplicit false

namespace Stlog

/-- Python 2 runtime values carried by log-record and database-row fields.
Byte strings (`str`) and text strings (`unicode`) are distinct Python 2
types; both are modelled as lists of characters, a `str` character standing
for one byte. -/
inductive PyVal where
  | none
  | str (bytes : List Char)
  | uni (chars : List Char)
  | int (n : Int)
  deriving DecidableEq

/-- Python exceptions the embedded fragments can raise. -/
inductive PyErr where
  | unicodeDecodeError
  | attributeError
  deriving DecidableEq

/-- Python 2 `unicode(value)` on a byte string: decode with the default
ASCII codec, raising `UnicodeDecodeError` on any byte above 127. -/
def unicodeOfStr (bs : List Char) : Except PyErr (List Char) :=
  if bs.all (fun c => c.toNat < 128) then .ok bs else .error .unicodeDecodeError

/-- One pass of the coercion loop at the end of `DatabaseHandler.format`:
`if value is not None and isinstance(value, str): unicode(value)`.
`None`, unicode strings and numbers are left alone. -/
def coerceVal : PyVal → Except PyErr PyVal
  | .str bs =>
    match unicodeOfStr bs with
    | .error e => .error e
    | .ok cs => .ok (.uni cs)
  | v => .ok v

/-- Python `getattr(record, attr)` for an attribute that may be absent:
absence raises `AttributeError`. -/
def getAttr : Option PyVal → Except PyErr PyVal
  | Option.none => .error .attributeError
  | some v => .ok v

/-- The coercion-loop pass on an attribute that may be absent. -/
def coerceOpt (v : Option PyVal) : Except PyErr (Option PyVal) :=
  match v with
  | Option.none => .error .attributeError
  | some u =>
    match coerceVal u with
    | .error e => .error e
    | .ok w => .ok (some w)

/-- Calendar date-times are opaque to this development: `fromtimestamp` is
injective, so the model keeps the originating timestamp. -/
structure PyDateTime where
  ts : Int
  deriving DecidableEq

def PyDateTime.fromtimestamp (t : Int) : PyDateTime := ⟨t⟩

/-- One `logging.LogRecord`. Attributes a record only acquires at
formatting time, or that caller code may or may not have set (the source
probes them with `hasattr`), are `Option`s; `Option.none` means the
attribute is absent, which is distinct from the attribute being present
with value `PyVal.none`. `exc_info` carries the text that
`Formatter.formatException` would render for it, `Option.none` when the
record has no (falsy) exception info. -/
structure Record where
  name : PyVal
  msg : PyVal
  levelname : PyVal
  levelno : PyVal
  pathname : PyVal
  filename : PyVal
  module : PyVal
  lineno : PyVal
  funcName : PyVal
  created : Int
  msecs : PyVal
  relativeCreated : PyVal
  process : PyVal
  processName : PyVal
  thread : PyVal
  threadName : PyVal
  exc_info : Option (List Char) := Option.none
  hostname : Option PyVal := Option.none
  datetime : Option PyDateTime := Option.none
  exception : Option PyVal := Option.none
  asctime : Option PyVal := Option.none
  message : Option PyVal := Option.none
  deriving DecidableEq

/-- Python 2 `str()` as `LogRecord.getMessage` applies it to a non-string
message object. -/
def pyStrOfVal : PyVal → PyVal
  | PyVal.none => .str "None".data
  | .int n => .str (toString n).data
  | v => v

/-- Modelled from the Python 2 standard library (an external collaborator
of this module): `LogRecord.getMessage` keeps a string `msg` as it is and
`str()`-converts any other value; `args` interpolation is not exercised
here. -/
def getMessage (r : Record) : PyVal :=
  match r.msg with
  | .str bs => .str bs
  | .uni cs => .uni cs
  | v => pyStrOfVal v

/-- Modelled from the Python 2 standard library (an external collaborator
of this module): `logging.Formatter.format` stores
`record.message = record.getMessage()` and, because the format string uses
`asctime`, stores the rendered timestamp of the record; the rendering of
the wall-clock time is passed in as `asc`. -/
def superFormat (asc : List Char) (r : Record) : Record :=
  { r with message := some (getMessage r), asctime := some (.str asc) }

/-- The asctime massage of `DatabaseHandler.format`: when the rendered
string has length at least 4 and its 4th-from-last character is a comma,
replace that comma with a period, keeping everything else. -/
def massageAsctime (s : List Char) : List Char :=
  if s.length ≥ 4 ∧ s.get? (s.length - 4) = some ',' then
    s.take (s.length - 4) ++ '.' :: s.drop (s.length - 3)
  else s

/-- The massage applied to `record.asctime`; at this point the standard
formatter has always set it to a byte string, the other cases are
unreachable. -/
def massagePyVal : PyVal → PyVal
  | .str s => .str (massageAsctime s)
  | .uni s => .uni (massageAsctime s)
  | v => v

/-- Steps 1 to 3 of `DatabaseHandler.format`: fill `hostname` (from
`socket.gethostname()`, passed in as `host`) and `datetime` only when the
attribute is absent, and set `exception` from `exc_info` unconditionally. -/
def enrich (host : List Char) (r : Record) : Record :=
  { r with
    hostname := some (r.hostname.getD (.str host)),
    datetime := some (r.datetime.getD (PyDateTime.fromtimestamp r.created)),
    exception := some (match r.exc_info with
      | some tb => PyVal.str tb
      | Option.none => PyVal.none) }

/-- The unicode-coercion loop at the end of `DatabaseHandler.format`, over
the thirteen listed attributes in source order; the first failing
decode raises out of the loop. -/
def coerceRecord (r : Record) : Except PyErr Record :=
  match coerceOpt r.asctime with
  | .error e => .error e
  | .ok asct =>
  match coerceOpt r.hostname with
  | .error e => .error e
  | .ok hn =>
  match coerceVal r.filename with
  | .error e => .error e
  | .ok fn =>
  match coerceVal r.funcName with
  | .error e => .error e
  | .ok fnN =>
  match coerceVal r.levelname with
  | .error e => .error e
  | .ok lvl =>
  match coerceVal r.levelno with
  | .error e => .error e
  | .ok lvlNo =>
  match coerceVal r.module with
  | .error e => .error e
  | .ok md =>
  match coerceOpt r.message with
  | .error e => .error e
  | .ok ms =>
  match coerceVal r.name with
  | .error e => .error e
  | .ok nm =>
  match coerceVal r.pathname with
  | .error e => .error e
  | .ok pth =>
  match coerceVal r.processName with
  | .error e => .error e
  | .ok prN =>
  match coerceVal r.threadName with
  | .error e => .error e
  | .ok thN =>
  match coerceOpt r.exception with
  | .error e => .error e
  | .ok ex =>
    .ok { r with
          asctime := asct, hostname := hn, filename := fn,
          funcName := fnN, levelname := lvl, levelno := lvlNo, module := md,
          message := ms, name := nm, pathname := pth, processName := prN,
          threadName := thN, exception := ex }

/-- The statement `record.asctime = massage(record.asctime)` of
`DatabaseHandler.format`; `asctime` has just been set by the standard
formatter. -/
def massAsctimeStep (r : Record) : Record :=
  { r with asctime := r.asctime.map massagePyVal }

namespace DatabaseHandler

/-- Translation of `DatabaseHandler.format`: enrich the record, run the
standard formatter, massage `asctime`, then coerce every listed string
attribute to unicode. The coercion loop is the only step of the method
body that can raise. -/
def format (host asc : List Char) (r : Record) : Except PyErr Record :=
  coerceRecord (massAsctimeStep (superFormat asc (enrich host r)))

end DatabaseHandler

/-- One row of the `logentry` table, with the fields of the `Events`
entity. `required=True` on `datetime`, `hostname` and `message` becomes a
NOT NULL constraint on the column; `datetime` here always holds a
date-time by construction, so only `hostname` and `message` can carry the
NULL value `PyVal.none`. -/
structure Entry where
  datetime : PyDateTime
  asctime : PyVal
  created : Int
  hostname : PyVal
  filename : PyVal
  funcName : PyVal
  levelname : PyVal
  levelno : PyVal
  lineno : PyVal
  module : PyVal
  msecs : PyVal
  message : PyVal
  name : PyVal
  pathname : PyVal
  process : PyVal
  processName : PyVal
  relativeCreated : PyVal
  thread : PyVal
  threadName : PyVal
  exception : PyVal
  deriving DecidableEq

/-- Construction of the `Events` row inside `emit`: every keyword argument
reads an attribute of the already formatted record; reading an absent
attribute raises `AttributeError`. -/
def mkEntry (r : Record) : Except PyErr Entry :=
  match r.datetime with
  | Option.none => .error .attributeError
  | some dt =>
  match getAttr r.asctime with
  | .error e => .error e
  | .ok asct =>
  match getAttr r.hostname with
  | .error e => .error e
  | .ok hn =>
  match getAttr r.message with
  | .error e => .error e
  | .ok msgV =>
  match getAttr r.exception with
  | .error e => .error e
  | .ok exc =>
    .ok {
      datetime := dt, asctime := asct, created := r.created,
      hostname := hn, filename := r.filename, funcName := r.funcName,
      levelname := r.levelname, levelno := r.levelno, lineno := r.lineno,
      module := r.module, msecs := r.msecs, message := msgV, name := r.name,
      pathname := r.pathname, process := r.process,
      processName := r.processName, relativeCreated := r.relativeCreated,
      thread := r.thread, threadName := r.threadName, exception := exc }

/-- The NOT NULL constraints that `required=True` declares on the `Events`
entity: the database rejects a row whose `hostname` or `message` column is
NULL. An empty string is not NULL and passes the constraint. -/
def requiredOk (e : Entry) : Bool :=
  decide (e.hostname ≠ PyVal.none) && decide (e.message ≠ PyVal.none)

/-- Outcome of `elixir.session.commit()` (the external database): it
succeeds exactly when the backend accepts the transaction (`dbUp`) and the
row satisfies the declared NOT NULL constraints. -/
def commitOk (dbUp : Bool) (e : Entry) : Bool := dbUp && requiredOk e

/-- Observable storage and fallback events of one `emit` call, in order. -/
inductive Ev where
  | insertEntry
  | commitAttempt
  | rollback
  | fallbackWrite
  deriving DecidableEq

/-- Where a record ends up: durably persisted as a row, or written to the
fallback stream handler. -/
inductive EmitOutcome where
  | persisted (e : Entry)
  | fellBack (r : Record)
  deriving DecidableEq

namespace DatabaseHandler

/-- Translation of `DatabaseHandler.handleError`: forward the record to
the fallback stream handler (`self._fallback_handler.emit(record)`),
swallowing the storage error. -/
def handleError (r : Record) : EmitOutcome := .fellBack r

/-- Translation of `DatabaseHandler.emit`: format the record (outside any
`try`), build the `Events` row, and commit inside `try`; on commit failure
roll back and hand the record to `handleError`. The returned event list
records the storage operations in order. -/
def emit (host asc : List Char) (dbUp : Bool) (r : Record) :
    Except PyErr (EmitOutcome × List Ev) :=
  match format host asc r with
  | .error e => .error e
  | .ok r2 =>
  match mkEntry r2 with
  | .error e => .error e
  | .ok e =>
    if commitOk dbUp e then
      .ok (.persisted e, [Ev.insertEntry, Ev.commitAttempt])
    else
      .ok (handleError r2,
           [Ev.insertEntry, Ev.commitAttempt, Ev.rollback, Ev.fallbackWrite])

end DatabaseHandler

/-- Characters Python 2 `urllib` never escapes (`always_safe`): ASCII
letters, digits, underscore, period and hyphen. -/
def alwaysSafe (c : Char) : Bool :=
  c.isAlpha || c.isDigit || c == '_' || c == '.' || c == '-'

/-- Uppercase hexadecimal digit, as `urllib` renders escapes. -/
def hexDigit (n : Nat) : Char :=
  if n < 10 then Char.ofNat (48 + n) else Char.ofNat (55 + n)

/-- Python 2 `urllib.quote_plus` with its default empty safe set: keep the
always-safe characters, turn a space into a plus, percent-escape every
other byte in uppercase hexadecimal. -/
def quote_plus (s : List Char) : List Char :=
  (s.map fun c =>
    if alwaysSafe c then [c]
    else if c == ' ' then ['+']
    else ['%', hexDigit (c.toNat / 16 % 16), hexDigit (c.toNat % 16)]).flatten

/-- Truthiness of the `port` argument as `_db_connection_str` tests it
(`port and port != -1`): Python `None` and `0` are falsy. -/
def portGiven (port : Option Int) : Bool :=
  match port with
  | Option.none => false
  | some p => decide (p ≠ 0) && decide (p ≠ -1)

/-- Python `str(port)` for a truthy port. -/
def intDigits (n : Int) : List Char := (toString n).data

/-- Translation of `_db_connection_str`. `abspath` stands for
`os.path.abspath`, whose result depends on the working directory. -/
def db_connection_str (abspath : List Char → List Char)
    (flavor username password server : List Char) (port : Option Int)
    (database : List Char) : List Char :=
  if flavor = "sqlite".data then
    "sqlite:///".data ++ abspath database
  else
    let hasMssql := "mssql".data.isPrefixOf flavor
    let pwd := quote_plus password
    let dbInfo := '/' :: database
    let portInfo :=
      if portGiven port && !hasMssql then
        ':' :: intDigits ((port.getD 0))
      else if portGiven port then
        "?port=".data ++ intDigits ((port.getD 0))
      else []
    let base := flavor ++ "://".data ++ username ++ ':' :: pwd ++ '@' :: server
    if hasMssql then base ++ dbInfo ++ portInfo else base ++ portInfo ++ dbInfo

/-- The `InvalidConfiguration` errors `init` can raise, by site. -/
inductive InitError where
  | noUsername
  | noPasswordFile (path : List Char)
  | noPasswordEntry (server path : List Char)
  deriving DecidableEq

/-- Python `os.path.join` for two components. -/
def pathJoin (a b : List Char) : List Char :=
  if b.head? = some '/' then b
  else if a = [] ∨ a.getLast? = some '/' then a ++ b
  else a ++ '/' :: b

/-- Building `dict([l.split() for l in open(path)])` from the tokenized
lines of the credentials file: it succeeds only when every line splits
into exactly two whitespace-separated tokens. -/
def parseDict : List (List (List Char)) → Option (List (List Char × List Char))
  | [] => some []
  | (k :: v :: []) :: rest => (parseDict rest).map (fun ps => (k, v) :: ps)
  | _ => Option.none

/-- Lookup in the dictionary built from pair list: a later pair for the
same key overwrites an earlier one, so scan from the end. -/
def lookupLast (ps : List (List Char × List Char)) (k : List Char) :
    Option (List Char) :=
  (ps.reverse.find? (fun p => decide (p.1 = k))).map (fun p => p.2)

/-- The username block of `init`: when no username was passed and the
backend is not sqlite, derive it from $USER, then $LOGNAME, else raise. -/
def resolveU (env : List Char → Option (List Char))
    (username : Option (List Char)) (db_type : List Char) :
    Except InitError (Option (List Char)) :=
  if username = Option.none ∧ db_type ≠ "sqlite".data then
    match env "USER".data with
    | some u => .ok (some u)
    | Option.none =>
      match env "LOGNAME".data with
      | some u => .ok (some u)
      | Option.none => .error .noUsername
  else .ok username

/-- The path $ACAREA/username.dat of the credentials file, with the base
directory defaulting to `/usr/local/sybase/stbin`. -/
def credPath (env : List Char → Option (List Char))
    (uname : Option (List Char)) : List Char :=
  pathJoin ((env "ACAREA".data).getD "/usr/local/sybase/stbin".data)
    ((uname.getD "None".data) ++ ".dat".data)

/-- The password block of `init`: when no password was passed and the
backend is not sqlite, read $ACAREA/username.dat, parse it as
server/password pairs, and look the server up; each failure raises.
`readDat` reads and tokenizes a file, `Option.none` when the file cannot
be opened. -/
def resolveP (env : List Char → Option (List Char))
    (readDat : List Char → Option (List (List (List Char))))
    (server : List Char) (uname password : Option (List Char))
    (db_type : List Char) : Except InitError (Option (List Char)) :=
  if password = Option.none ∧ db_type ≠ "sqlite".data then
    match readDat (credPath env uname) with
    | Option.none => .error (.noPasswordFile (credPath env uname))
    | some lines =>
      match parseDict lines with
      | Option.none => .error (.noPasswordFile (credPath env uname))
      | some pairs =>
        match lookupLast pairs server with
        | some p => .ok (some p)
        | Option.none => .error (.noPasswordEntry server (credPath env uname))
  else .ok password

/-- The credential-resolution part of `init`, returning the resolved
username and password. The subsequent `elixir` binding and optional
sqlite schema creation are external effects that raise no
`InvalidConfiguration`, so they are not modelled. -/
def init (env : List Char → Option (List Char))
    (readDat : List Char → Option (List (List (List Char))))
    (server : List Char) (username password : Option (List Char))
    (db_type : List Char) :
    Except InitError (Option (List Char) × Option (List Char)) :=
  match resolveU env username db_type with
  | .error e => .error e
  | .ok uname =>
    match resolveP env readDat server uname password db_type with
    | .error e => .error e
    | .ok pwd => .ok (uname, pwd)

/-- Whether a call of `init` raised `InvalidConfiguration`. -/
def raisesConfig {α : Type} : Except InitError α → Bool
  | .error _ => true
  | .ok _ => false

/-- The username as the spec describes its resolution: the explicit
argument, else $USER, else $LOGNAME. -/
def resolveUser (env : List Char → Option (List Char))
    (username : Option (List Char)) : Option (List Char) :=
  username <|> env "USER".data <|> env "LOGNAME".data

/-- The password as the spec describes its lookup: read the server-keyed
credentials file under the environment-configurable base directory and
find the entry for this server. -/
def passwordLookup (env : List Char → Option (List Char))
    (readDat : List Char → Option (List (List (List Char))))
    (server : List Char) (uname : Option (List Char)) : Option (List Char) :=
  ((readDat (credPath env uname)).bind parseDict).bind
    (fun ps => lookupLast ps server)

/-- A standard-library logger: its severity threshold and the attached
handlers, identified by creation order of the handler objects. -/
structure SLogger where
  level : Nat
  handlers : List Nat
  deriving DecidableEq

/-- Module-level logging state: the registry of named loggers and the
identity counter for newly constructed handler objects. -/
structure LogState where
  registry : List (List Char × SLogger)
  nextHandler : Nat
  deriving DecidableEq

/-- The logging state of a fresh process: no named loggers, no handlers. -/
def initLogState : LogState := { registry := [], nextHandler := 0 }

/-- Modelled from the Python standard library (an external collaborator):
`logging.getLogger(name)` returns the logger registered under `name`,
creating and registering a fresh one on first use. -/
def getLoggerByName (name : List Char) (st : LogState) : SLogger × LogState :=
  match st.registry.find? (fun p => decide (p.1 = name)) with
  | some p => (p.2, st)
  | Option.none =>
    let fresh : SLogger := { level := 0, handlers := [] }
    (fresh, { st with registry := st.registry ++ [(name, fresh)] })

/-- Modelled from the Python standard library (an external collaborator):
`Logger.addHandler` appends the handler unless that same handler object is
already attached. -/
def addHandler (lg : SLogger) (h : Nat) : SLogger :=
  if h ∈ lg.handlers then lg else { lg with handlers := lg.handlers ++ [h] }

/-- Store an updated logger back under its name in the registry. -/
def setLogger (reg : List (List Char × SLogger)) (name : List Char)
    (lg : SLogger) : List (List Char × SLogger) :=
  reg.map (fun p => if p.1 = name then (name, lg) else p)

/-- Translation of `get_logger`: fetch the module logger (its `__name__`
is `stlog`), set its level, construct a fresh `DatabaseHandler` object and
attach it. The formatter assignment does not affect the handler list. -/
def get_logger (level : Nat) (st : LogState) : SLogger × LogState :=
  let s1 := getLoggerByName "stlog".data st
  let lg := { s1.1 with level := level }
  let hid := s1.2.nextHandler
  let lg2 := addHandler lg hid
  (lg2, { registry := setLogger s1.2.registry "stlog".data lg2,
          nextHandler := hid + 1 })

/-- The stream fallback handler's releasable resource state. -/
structure StreamH where
  closed : Bool
  deriving DecidableEq

/-- Resource state of one `DatabaseHandler`: its fallback stream handler
and whether this handler is still registered in the module handler map
(Python's `logging.Handler.close` performs a guarded removal from that
map). -/
structure HandlerRes where
  fallback : StreamH
  registered : Bool
  deriving DecidableEq

namespace DatabaseHandler

/-- Translation of `DatabaseHandler.close`: the session close in the body
is commented out, so the method only delegates to `logging.Handler.close`,
which deregisters this handler from the module handler map;
`self._fallback_handler` is not touched. -/
def close (h : HandlerRes) : HandlerRes := { h with registered := false }

end DatabaseHandler

/-- A concrete benign record used to exercise the embedding: every string
attribute is already unicode (and ASCII), the message is the single
character `m`, and no optional attribute has been set yet. -/
def baseRecord : Record :=
  { name := .uni [], msg := .uni ['m'], levelname := .uni [],
    levelno := .int 10, pathname := .uni [], filename := .uni [],
    module := .uni [], lineno := .int 1, funcName := .uni [], created := 0,
    msecs := .int 0, relativeCreated := .int 0, process := .int 1,
    processName := .uni [], thread := .int 1, threadName := .uni [] }

/-- The value `DatabaseHandler.format` produces from `baseRecord` with
hostname `h` and an empty rendered timestamp. -/
def formattedBase : Record :=
  { baseRecord with
    hostname := some (.uni ['h']), datetime := some ⟨0⟩,
    exception := some PyVal.none, asctime := some (.uni []),
    message := some (.uni ['m']) }

/-- The `Events` row built from `formattedBase`. -/
def baseEntry : Entry :=
  { datetime := ⟨0⟩, asctime := .uni [], created := 0,
    hostname := .uni ['h'], filename := .uni [], funcName := .uni [],
    levelname := .uni [], levelno := .int 10, lineno := .int 1,
    module := .uni [], msecs := .int 0, message := .uni ['m'],
    name := .uni [], pathname := .uni [], process := .int 1,
    processName := .uni [], relativeCreated := .int 0, thread := .int 1,
    threadName := .uni [], exception := PyVal.none }

/-- Totalized `mkEntry`, a convenience for stating results about records
whose entry construction is known to succeed. -/
def mkEntryD (r : Record) : Entry :=
  match mkEntry r with
  | .ok e => e
  | .error _ => baseEntry

/-- A record carrying an empty (but present) hostname and an empty
message. -/
def emptyFieldsRecord : Record :=
  { baseRecord with hostname := some (.uni []), msg := .uni [] }

/-- The row `emit` builds from `emptyFieldsRecord`. -/
def emptyFieldsEntry : Entry :=
  { baseEntry with hostname := .uni [], message := .uni [] }

/-- A record whose logger name is a Python 2 byte string holding a
non-ASCII byte, as `logging.getLogger` produces for a non-ASCII `str`
logger name. -/
def nonAsciiNameRecord : Record := { baseRecord with name := .str ['é'] }

/-- A freshly constructed handler: fallback stream open, handler
registered. -/
def freshHandlerRes : HandlerRes :=
  { fallback := { closed := false }, registered := true }

/-- A successful coercion pass on an optional attribute means the
attribute was present and its value decoded. -/
theorem coerceOpt_ok_spec {v w : Option PyVal} (h : coerceOpt v = Except.ok w) :
    ∃ u x, v = some u ∧ coerceVal u = Except.ok x ∧ w = some x := by
  match v with
  | Option.none => simp [coerceOpt] at h
  | some u =>
    match hc : coerceVal u with
    | .error e => simp [coerceOpt, hc] at h
    | .ok x =>
      refine ⟨u, x, rfl, hc, ?_⟩
      simp only [coerceOpt, hc, Except.ok.injEq] at h
      exact h.symm

/-- What a successful run of the coercion loop guarantees about the
fields the later row construction needs: `datetime` is untouched, and
`asctime`, `hostname`, `message`, `exception` were present and were
decoded. -/
theorem coerceRecord_ok_spec {r r2 : Record} (h : coerceRecord r = Except.ok r2) :
    r2.datetime = r.datetime
    ∧ (∃ v w, r.asctime = some v ∧ coerceVal v = Except.ok w ∧ r2.asctime = some w)
    ∧ (∃ v w, r.hostname = some v ∧ coerceVal v = Except.ok w ∧ r2.hostname = some w)
    ∧ (∃ v w, r.message = some v ∧ coerceVal v = Except.ok w ∧ r2.message = some w)
    ∧ (∃ v w, r.exception = some v ∧ coerceVal v = Except.ok w ∧ r2.exception = some w) := by
  unfold coerceRecord at h
  cases h1 : coerceOpt r.asctime with
  | error e => simp [h1] at h
  | ok asct =>
  simp only [h1] at h
  cases h2 : coerceOpt r.hostname with
  | error e => simp [h2] at h
  | ok hn =>
  simp only [h2] at h
  cases h3 : coerceVal r.filename with
  | error e => simp [h3] at h
  | ok fn =>
  simp only [h3] at h
  cases h4 : coerceVal r.funcName with
  | error e => simp [h4] at h
  | ok fnN =>
  simp only [h4] at h
  cases h5 : coerceVal r.levelname with
  | error e => simp [h5] at h
  | ok lvl =>
  simp only [h5] at h
  cases h6 : coerceVal r.levelno with
  | error e => simp [h6] at h
  | ok lvlNo =>
  simp only [h6] at h
  cases h7 : coerceVal r.module with
  | error e => simp [h7] at h
  | ok md =>
  simp only [h7] at h
  cases h8 : coerceOpt r.message with
  | error e => simp [h8] at h
  | ok ms =>
  simp only [h8] at h
  cases h9 : coerceVal r.name with
  | error e => simp [h9] at h
  | ok nm =>
  simp only [h9] at h
  cases h10 : coerceVal r.pathname with
  | error e => simp [h10] at h
  | ok pth =>
  simp only [h10] at h
  cases h11 : coerceVal r.processName with
  | error e => simp [h11] at h
  | ok prN =>
  simp only [h11] at h
  cases h12 : coerceVal r.threadName with
  | error e => simp [h12] at h
  | ok thN =>
  simp only [h12] at h
  cases h13 : coerceOpt r.exception with
  | error e => simp [h13] at h
  | ok ex =>
  simp only [h13, Except.ok.injEq] at h
  subst h
  obtain ⟨va, wa, hva, hca, hwa⟩ := coerceOpt_ok_spec h1
  obtain ⟨vh, wh, hvh, hch, hwh⟩ := coerceOpt_ok_spec h2
  obtain ⟨vm, wm, hvm, hcm, hwm⟩ := coerceOpt_ok_spec h8
  obtain ⟨ve, we, hve, hce, hwe⟩ := coerceOpt_ok_spec h13
  exact ⟨rfl, ⟨va, wa, hva, hca, hwa⟩, ⟨vh, wh, hvh, hch, hwh⟩,
    ⟨vm, wm, hvm, hcm, hwm⟩, ⟨ve, we, hve, hce, hwe⟩⟩

/-- After a successful `format`, the row construction of `emit` cannot
raise: every attribute it reads is present on the record. -/
theorem mkEntry_ok_of_format {host asc : List Char} {r r2 : Record}
    (h : DatabaseHandler.format host asc r = Except.ok r2) :
    ∃ e, mkEntry r2 = Except.ok e := by
  have h' : coerceRecord (massAsctimeStep (superFormat asc (enrich host r)))
      = Except.ok r2 := h
  obtain ⟨hdt, ⟨va, wa, hva, hca, hwa⟩, ⟨vh, wh, hvh, hch, hwh⟩,
    ⟨vm, wm, hvm, hcm, hwm⟩, ⟨ve, we, hve, hce, hwe⟩⟩ := coerceRecord_ok_spec h'
  have hdt' : r2.datetime
      = some (r.datetime.getD (PyDateTime.fromtimestamp r.created)) := hdt
  simp only [mkEntry, hdt', hwa, hwh, hwm, hwe, getAttr]
  exact ⟨_, rfl⟩

/-- Characterization of the username block of `init` for a backend that
requires authentication. -/
theorem resolveU_spec (env : List Char → Option (List Char))
    (username : Option (List Char)) (db_type : List Char)
    (hdb : db_type ≠ "sqlite".data) :
    resolveU env username db_type =
      match resolveUser env username with
      | some u => Except.ok (some u)
      | Option.none => Except.error InitError.noUsername := by
  unfold resolveU resolveUser
  cases username with
  | some u => simp [hdb, Option.orElse]
  | none =>
    cases hU : env "USER".data with
    | some u => simp [hdb, hU, Option.orElse]
    | none =>
      cases hL : env "LOGNAME".data with
      | some u => simp [hdb, hU, hL, Option.orElse]
      | none => simp [hdb, hU, hL, Option.orElse]

/-- The password block of `init` succeeds trivially when a password was
passed. -/
theorem resolveP_some (env : List Char → Option (List Char))
    (readDat : List Char → Option (List (List (List Char))))
    (server : List Char) (uname : Option (List Char)) (pw : List Char)
    (db_type : List Char) :
    resolveP env readDat server uname (some pw) db_type = Except.ok (some pw) := by
  simp [resolveP]

/-- For a backend that requires authentication and no supplied password,
the password block raises exactly when the credentials-file lookup finds
nothing. -/
theorem resolveP_err_iff (env : List Char → Option (List Char))
    (readDat : List Char → Option (List (List (List Char))))
    (server : List Char) (uname : Option (List Char)) (db_type : List Char)
    (hdb : db_type ≠ "sqlite".data) :
    raisesConfig (resolveP env readDat server uname Option.none db_type)
      = (passwordLookup env readDat server uname).isNone := by
  unfold resolveP passwordLookup
  rw [if_pos (And.intro rfl hdb)]
  cases hrd : readDat (credPath env uname) with
  | none => simp [hrd, raisesConfig]
  | some lines =>
    cases hpd : parseDict lines with
    | none => simp [hrd, hpd, raisesConfig]
    | some pairs =>
      cases hlk : lookupLast pairs server with
      | none => simp [hrd, hpd, hlk, raisesConfig]
      | some pw => simp [hrd, hpd, hlk, raisesConfig]

/-- For a backend that requires authentication and no supplied password,
a successful credentials-file lookup is returned as the password. -/
theorem resolveP_ok_of_lookup (env : List Char → Option (List Char))
    (readDat : List Char → Option (List (List (List Char))))
    (server : List Char) (uname : Option (List Char)) (pw : List Char)
    (db_type : List Char) (hdb : db_type ≠ "sqlite".data)
    (hlk : passwordLookup env readDat server uname = some pw) :
    resolveP env readDat server uname Option.none db_type = Except.ok (some pw) := by
  unfold resolveP
  unfold passwordLookup at hlk
  rw [if_pos (And.intro rfl hdb)]
  cases hrd : readDat (credPath env uname) with
  | none => simp [hrd] at hlk
  | some lines =>
    cases hpd : parseDict lines with
    | none => simp [hrd, hpd] at hlk
    | some pairs =>
      simp only [hrd, hpd, Option.some_bind] at hlk
      simp [hrd, hpd, hlk]

/-- C3: a rendered asctime ending in a comma followed by three digits is
rewritten to end in a period followed by those digits, all preceding
characters unchanged; a string shorter than 4 characters, or whose
4th-from-last character is not a comma, is left unchanged. -/
theorem massageAsctime_rewrite_spec :
    (∀ (t : List Char) (d1 d2 d3 : Char), d1.isDigit → d2.isDigit → d3.isDigit →
        massageAsctime (t ++ [',', d1, d2, d3]) = t ++ ['.', d1, d2, d3])
    ∧ (∀ s : List Char,
        s.length < 4 ∨ ¬ s.get? (s.length - 4) = some ',' →
          massageAsctime s = s) := by
  constructor
  · intro t d1 d2 d3 _ _ _
    have hlen : (t ++ [',', d1, d2, d3]).length = t.length + 4 := by simp
    have hidx : (t ++ [',', d1, d2, d3]).get?
        ((t ++ [',', d1, d2, d3]).length - 4) = some ',' := by
      rw [hlen, Nat.add_sub_cancel, List.get?_append_right (Nat.le_refl _)]
      simp
    have htake : (t ++ [',', d1, d2, d3]).take
        ((t ++ [',', d1, d2, d3]).length - 4) = t := by
      rw [hlen, Nat.add_sub_cancel]
      exact List.take_left t _
    have hdrop : (t ++ [',', d1, d2, d3]).drop
        ((t ++ [',', d1, d2, d3]).length - 3) = [d1, d2, d3] := by
      rw [hlen]
      have h3 : t.length + 4 - 3 = t.length + 1 := by omega
      rw [h3, show t.length + 1 = t.length + 1 from rfl]
      rw [List.drop_append]
      rfl
    rw [massageAsctime, if_pos ⟨by omega, hidx⟩, htake, hdrop]
  · intro s h
    rw [massageAsctime, if_neg]
    rcases h with h | h
    · exact fun hc => absurd hc.1 (by omega)
    · exact fun hc => h hc.2

/-- C3 witness: the massage at a concrete matching and a concrete
non-matching timestamp. -/
theorem massageAsctime_rewrite_spec_witness :
    massageAsctime ("12:00:00".data ++ [',', '1', '2', '3'])
        = "12:00:00".data ++ ['.', '1', '2', '3']
    ∧ massageAsctime "abc".data = "abc".data :=
  ⟨massageAsctime_rewrite_spec.1 "12:00:00".data '1' '2' '3'
      (by decide) (by decide) (by decide),
   massageAsctime_rewrite_spec.2 "abc".data (Or.inl (by decide))⟩

/-- C8: logger acquisition is not idempotent: starting from a fresh
logging state, the first `get_logger` call leaves one handler attached to
the shared `stlog` logger and a second call leaves two distinct handlers
attached to it. -/
theorem get_logger_twice_attaches_two_handlers (l1 l2 : Nat) :
    (get_logger l1 initLogState).1.handlers = [0]
    ∧ (get_logger l2 (get_logger l1 initLogState).2).1.handlers = [0, 1] :=
  ⟨rfl, rfl⟩

/-- C9 counterexample: closing a freshly constructed handler does not
release the fallback stream handler's resources — its `close` is never
invoked, so the fallback stream stays open. -/
theorem close_does_not_release_fallback :
    (DatabaseHandler.close freshHandlerRes).fallback.closed = false := rfl

/-- C9 amended: `close` only performs the superclass deregistration of
the handler itself; it is idempotent and leaves the fallback stream
handler's state untouched (in particular, not closed). -/
theorem close_idempotent_fallback_untouched (h : HandlerRes) :
    DatabaseHandler.close (DatabaseHandler.close h) = DatabaseHandler.close h
    ∧ (DatabaseHandler.close h).fallback = h.fallback
    ∧ (DatabaseHandler.close h).registered = false :=
  ⟨rfl, rfl, rfl⟩

/-- C1 counterexample: `emit` can raise into the caller. The formatting
step runs outside the `try` block, and its unicode-coercion loop raises
`UnicodeDecodeError` on a record whose logger name is a byte string with
a non-ASCII byte, so neither persistence nor the stream fallback
happens. -/
theorem emit_raises_unicode_decode_on_nonascii_str_field :
    DatabaseHandler.emit ['h'] [] true nonAsciiNameRecord
      = Except.error PyErr.unicodeDecodeError := rfl

/-- C1 amended: whenever the formatting step succeeds, `emit` does not
raise: its only outcomes are a persisted row (after a successful commit)
or the formatted record surfacing on the stream fallback (after rollback),
and any commit failure takes the fallback path rather than propagating. -/
theorem emit_two_outcomes_when_format_succeeds (host asc : List Char)
    (dbUp : Bool) (r r2 : Record)
    (h : DatabaseHandler.format host asc r = Except.ok r2) :
    DatabaseHandler.emit host asc dbUp r
        = Except.ok (.persisted (mkEntryD r2), [Ev.insertEntry, Ev.commitAttempt])
    ∨ DatabaseHandler.emit host asc dbUp r
        = Except.ok (.fellBack r2,
            [Ev.insertEntry, Ev.commitAttempt, Ev.rollback, Ev.fallbackWrite]) := by
  obtain ⟨e, he⟩ := mkEntry_ok_of_format h
  have hd : mkEntryD r2 = e := by simp [mkEntryD, he]
  by_cases hc : commitOk dbUp e = true
  · left
    simp only [DatabaseHandler.emit, h, he, hd, hc, if_true]
  · right
    simp only [DatabaseHandler.emit, h, he, Bool.not_eq_true] at *
    simp only [DatabaseHandler.emit, h, he, hc, Bool.false_eq_true, if_false]
    rfl

/-- C1 witness: the amended statement at a concrete record whose
formatting succeeds. -/
theorem emit_two_outcomes_when_format_succeeds_witness :
    DatabaseHandler.emit ['h'] [] true baseRecord
        = Except.ok (.persisted (mkEntryD formattedBase),
            [Ev.insertEntry, Ev.commitAttempt])
    ∨ DatabaseHandler.emit ['h'] [] true baseRecord
        = Except.ok (.fellBack formattedBase,
            [Ev.insertEntry, Ev.commitAttempt, Ev.rollback, Ev.fallbackWrite]) :=
  emit_two_outcomes_when_format_succeeds ['h'] [] true baseRecord formattedBase rfl

/-- C2: when the insert-and-commit step fails for any reason, `emit` rolls
back and then invokes `handleError`, which forwards that same (formatted)
record to the stream fallback handler and swallows the error; the event
trace shows exactly one commit attempt, so no retry precedes the
fallback. -/
theorem emit_commit_failure_rollback_then_fallback (host asc : List Char)
    (dbUp : Bool) (r r2 : Record) (e : Entry)
    (h1 : DatabaseHandler.format host asc r = Except.ok r2)
    (h2 : mkEntry r2 = Except.ok e)
    (h3 : commitOk dbUp e = false) :
    DatabaseHandler.emit host asc dbUp r
      = Except.ok (DatabaseHandler.handleError r2,
          [Ev.insertEntry, Ev.commitAttempt, Ev.rollback, Ev.fallbackWrite])
    ∧ DatabaseHandler.handleError r2 = EmitOutcome.fellBack r2
    ∧ ([Ev.insertEntry, Ev.commitAttempt, Ev.rollback,
        Ev.fallbackWrite].count Ev.commitAttempt) = 1 := by
  refine ⟨?_, rfl, by decide⟩
  simp only [DatabaseHandler.emit, h1, h2, h3, Bool.false_eq_true, if_false]

/-- C2 witness: a concrete record emitted while the database rejects the
transaction. -/
theorem emit_commit_failure_rollback_then_fallback_witness :
    DatabaseHandler.emit ['h'] [] false baseRecord
      = Except.ok (DatabaseHandler.handleError formattedBase,
          [Ev.insertEntry, Ev.commitAttempt, Ev.rollback, Ev.fallbackWrite])
    ∧ DatabaseHandler.handleError formattedBase = EmitOutcome.fellBack formattedBase
    ∧ ([Ev.insertEntry, Ev.commitAttempt, Ev.rollback,
        Ev.fallbackWrite].count Ev.commitAttempt) = 1 :=
  emit_commit_failure_rollback_then_fallback ['h'] [] false baseRecord
    formattedBase baseEntry rfl rfl rfl

/-- C4 counterexample: a record whose hostname is present but empty and
whose message is empty is persisted as a row with those empty-string
fields when the database accepts the transaction — the `required=True`
constraint is NOT NULL only, so the write does not fail and no fallback
happens. -/
theorem emit_persists_empty_hostname_and_message :
    DatabaseHandler.emit ['h'] [] true emptyFieldsRecord
      = Except.ok (.persisted emptyFieldsEntry, [Ev.insertEntry, Ev.commitAttempt])
    ∧ emptyFieldsEntry.hostname = PyVal.uni []
    ∧ emptyFieldsEntry.message = PyVal.uni [] :=
  ⟨rfl, rfl, rfl⟩

/-- C4 amended: no persisted row carries a NULL (`None`) hostname or
message — a row violating the declared NOT NULL constraints never
commits, so such records always take the fallback path; empty strings,
however, satisfy the constraint and persist, and an absent hostname is
filled with the machine name before the insert. -/
theorem persisted_entry_required_fields_not_null (host asc : List Char)
    (dbUp : Bool) (r : Record) (e : Entry) (tr : List Ev)
    (h : DatabaseHandler.emit host asc dbUp r
      = Except.ok (EmitOutcome.persisted e, tr)) :
    e.hostname ≠ PyVal.none ∧ e.message ≠ PyVal.none := by
  unfold DatabaseHandler.emit at h
  cases hf : DatabaseHandler.format host asc r with
  | error er => simp [hf] at h
  | ok r2 =>
  simp only [hf] at h
  cases hm : mkEntry r2 with
  | error er => simp [hm] at h
  | ok e2 =>
  simp only [hm] at h
  by_cases hc : commitOk dbUp e2 = true
  · rw [if_pos hc] at h
    simp only [Except.ok.injEq, Prod.mk.injEq, EmitOutcome.persisted.injEq] at h
    obtain ⟨rfl, -⟩ := h
    simp only [commitOk, requiredOk, Bool.and_eq_true, decide_eq_true_eq] at hc
    exact hc.2
  · rw [if_neg hc] at h
    simp [DatabaseHandler.handleError] at h

/-- C4 witness for the amended statement: a concrete successful emit. -/
theorem persisted_entry_required_fields_not_null_witness :
    baseEntry.hostname ≠ PyVal.none ∧ baseEntry.message ≠ PyVal.none :=
  persisted_entry_required_fields_not_null ['h'] [] true baseRecord baseEntry
    [Ev.insertEntry, Ev.commitAttempt] rfl

/-- C5 counterexample: the flavor `mssql+pymssql` (a dialect string other
than `mssql`) with host `h`, database `d` and port 1433 places the
database segment before the port segment, because the source tests
`flavor.startswith` rather than equality — contradicting the claim that
every flavor other than `mssql` places the port segment first. -/
theorem db_connection_str_mssql_dialect_counterexample :
    db_connection_str id "mssql+pymssql".data "u".data "p".data "h".data
        (some 1433) "d".data
      = "mssql+pymssql://u:p@h/d?port=1433".data
    ∧ db_connection_str id "mssql+pymssql".data "u".data "p".data "h".data
        (some 1433) "d".data
      ≠ "mssql+pymssql://u:p@h:1433/d".data := by
  constructor
  · decide
  · decide

/-- C5 amended: with port 1433, every flavor starting with `mssql`
places the database segment before the port segment (rendered as
`?port=1433`), and every other flavor except the file-based `sqlite`
(which ignores host, credentials and port entirely) places the port
segment (`:1433`) before the database segment. -/
theorem db_connection_str_segment_order (abspath : List Char → List Char)
    (flavor u p h d : List Char) (hs : flavor ≠ "sqlite".data) :
    db_connection_str abspath flavor u p h (some 1433) d =
      if "mssql".data.isPrefixOf flavor then
        flavor ++ "://".data ++ u ++ ':' :: quote_plus p ++ '@' :: h
          ++ '/' :: d ++ "?port=1433".data
      else
        flavor ++ "://".data ++ u ++ ':' :: quote_plus p ++ '@' :: h
          ++ ':' :: "1433".data ++ '/' :: d := by
  unfold db_connection_str
  rw [if_neg hs]
  have h1433 : (toString (1433 : Int)).data = ['1', '4', '3', '3'] := by decide
  by_cases hm : "mssql".data.isPrefixOf flavor = true
  · simp [hm, portGiven, intDigits, h1433, List.append_assoc]
  · simp only [Bool.not_eq_true] at hm
    simp [hm, portGiven, intDigits, h1433, List.append_assoc]

/-- C5 witness: the amended statement at the plain `mssql` flavor. -/
theorem db_connection_str_segment_order_witness :
    db_connection_str id "mssql".data "u".data "p".data "h".data
        (some 1433) "d".data =
      if "mssql".data.isPrefixOf "mssql".data then
        "mssql".data ++ "://".data ++ "u".data ++ ':' :: quote_plus "p".data
          ++ '@' :: "h".data ++ '/' :: "d".data ++ "?port=1433".data
      else
        "mssql".data ++ "://".data ++ "u".data ++ ':' :: quote_plus "p".data
          ++ '@' :: "h".data ++ ':' :: "1433".data ++ '/' :: "d".data :=
  db_connection_str_segment_order id "mssql".data "u".data "p".data "h".data
    "d".data (by decide)

/-- C7: the format step derives `hostname` (local machine name) and
`datetime` (from the creation timestamp) only when the record lacks them,
derives `exception` from the exception info (formatted traceback text
when present, `None` otherwise), and runs the standard text-formatting
step only after these derivations. -/
theorem format_derivations_spec (host asc : List Char) (r r2 : Record)
    (h : DatabaseHandler.format host asc r = Except.ok r2) :
    DatabaseHandler.format host asc r
        = coerceRecord (massAsctimeStep (superFormat asc (enrich host r)))
    ∧ (enrich host r).hostname = some (r.hostname.getD (PyVal.str host))
    ∧ (enrich host r).datetime
        = some (r.datetime.getD (PyDateTime.fromtimestamp r.created))
    ∧ (∃ w, coerceVal (r.hostname.getD (PyVal.str host)) = Except.ok w
          ∧ r2.hostname = some w)
    ∧ r2.datetime = some (r.datetime.getD (PyDateTime.fromtimestamp r.created))
    ∧ (r.exc_info = Option.none → r2.exception = some PyVal.none)
    ∧ (∀ tb, r.exc_info = some tb →
        ∃ w, coerceVal (PyVal.str tb) = Except.ok w ∧ r2.exception = some w) := by
  have h' : coerceRecord (massAsctimeStep (superFormat asc (enrich host r)))
      = Except.ok r2 := h
  obtain ⟨hdt, -, ⟨vh, wh, hvh, hch, hwh⟩, -, ⟨ve, we, hve, hce, hwe⟩⟩ :=
    coerceRecord_ok_spec h'
  have hve2 : some (match r.exc_info with
      | some tb => PyVal.str tb
      | Option.none => PyVal.none) = some ve := hve
  refine ⟨rfl, rfl, rfl, ?_, hdt, ?_, ?_⟩
  · have hvh2 : some (r.hostname.getD (PyVal.str host)) = some vh := hvh
    have hv : r.hostname.getD (PyVal.str host) = vh := by
      injection hvh2
    exact ⟨wh, hv ▸ hch, hwh⟩
  · intro hni
    simp only [hni, Option.some.injEq] at hve2
    subst hve2
    have hcn : coerceVal PyVal.none = Except.ok PyVal.none := rfl
    rw [hcn] at hce
    injection hce with hwe2
    rw [hwe, ← hwe2]
  · intro tb htb
    simp only [htb, Option.some.injEq] at hve2
    subst hve2
    exact ⟨we, hce, hwe⟩

/-- C7 witness: a concrete record without preset hostname or datetime is
formatted with the derived datetime. -/
theorem format_derivations_spec_witness :
    formattedBase.datetime
      = some (baseRecord.datetime.getD (PyDateTime.fromtimestamp baseRecord.created)) :=
  (format_derivations_spec ['h'] [] baseRecord formattedBase rfl).2.2.2.2.1

/-- C10: for a record without exception info, the format step
unconditionally sets the `exception` attribute to `None`, overwriting any
value already present — unlike `hostname` and `datetime`, which it fills
only when absent. -/
theorem format_sets_exception_none_without_exc_info (host asc : List Char)
    (r r2 : Record) (hni : r.exc_info = Option.none)
    (h : DatabaseHandler.format host asc r = Except.ok r2) :
    r2.exception = some PyVal.none := by
  have h' : coerceRecord (massAsctimeStep (superFormat asc (enrich host r)))
      = Except.ok r2 := h
  obtain ⟨-, -, -, -, ⟨ve, we, hve, hce, hwe⟩⟩ := coerceRecord_ok_spec h'
  have hve2 : some (match r.exc_info with
      | some tb => PyVal.str tb
      | Option.none => PyVal.none) = some ve := hve
  simp only [hni, Option.some.injEq] at hve2
  subst hve2
  have hcn : coerceVal PyVal.none = Except.ok PyVal.none := rfl
  rw [hcn] at hce
  injection hce with hwe2
  rw [hwe, ← hwe2]

/-- C10 witness: a record that arrives with a preset `exception` value
and no exception info leaves `format` with `exception = None`. -/
theorem format_sets_exception_none_without_exc_info_witness :
    formattedBase.exception = some PyVal.none :=
  format_sets_exception_none_without_exc_info ['h'] []
    { baseRecord with exception := some (.uni ['x']) } formattedBase rfl rfl

/-- C6: `init` raises `InvalidConfiguration` exactly when credentials
cannot be resolved for a backend that requires authentication — when the
username is neither supplied nor derivable from $USER or $LOGNAME, or
when the password is not supplied and the server-keyed credentials file
yields nothing for it; for the sqlite backend, `init` never raises a
configuration error. -/
theorem init_raises_iff_credentials_unresolved
    (env : List Char → Option (List Char))
    (readDat : List Char → Option (List (List (List Char))))
    (server : List Char) (username password : Option (List Char))
    (db_type : List Char) :
    (db_type = "sqlite".data →
      init env readDat server username password db_type
        = Except.ok (username, password))
    ∧ (raisesConfig (init env readDat server username password db_type) = true ↔
        db_type ≠ "sqlite".data ∧
          (resolveUser env username = Option.none ∨
           (resolveUser env username ≠ Option.none ∧ password = Option.none ∧
             passwordLookup env readDat server (resolveUser env username)
               = Option.none))) := by
  constructor
  · intro hdb
    unfold init resolveU resolveP
    simp [hdb]
  · by_cases hdb : db_type = "sqlite".data
    · unfold init resolveU resolveP
      simp [hdb, raisesConfig]
    · have hru := resolveU_spec env username db_type hdb
      cases hres : resolveUser env username with
      | none =>
        simp only [hres] at hru
        unfold init
        simp only [hru]
        simp [raisesConfig, hdb, hres]
      | some u =>
        simp only [hres] at hru
        unfold init
        simp only [hru]
        cases password with
        | some pw =>
          simp only [resolveP_some]
          simp [raisesConfig, hdb, hres]
        | none =>
          cases hpl : passwordLookup env readDat server (some u) with
          | some pw =>
            simp only [resolveP_ok_of_lookup env readDat server (some u) pw
              db_type hdb hpl]
            simp [raisesConfig, hdb, hres, hpl]
          | none =>
            have herr := resolveP_err_iff env readDat server (some u) db_type hdb
            rw [hpl] at herr
            cases hrp : resolveP env readDat server (some u) Option.none db_type with
            | error e =>
              simp only [hrp]
              simp [raisesConfig, hdb, hres, hpl]
            | ok v =>
              rw [hrp] at herr
              simp [raisesConfig] at herr

/-- C6 witness: for the sqlite backend with no credentials and an empty
environment, `init` succeeds. -/
theorem init_raises_iff_credentials_unresolved_witness :
    init (fun _ => Option.none) (fun _ => Option.none) "s".data
        Option.none Option.none "sqlite".data
      = Except.ok (Option.none, Option.none) :=
  (init_raises_iff_credentials_unresolved (fun _ => Option.none)
      (fun _ => Option.none) "s".data Option.none Option.none "sqlite".data).1 rfl

end Stlog
